import Mathlib

/-!
Verification of the myCobot Node.js driver core (mycobot-controller.ts,
movement-recorder.ts, command-ids.ts) against its specification.

Byte buffers are modelled as `List Nat` (each entry one byte), JavaScript
numbers used as degree/millimetre values as `ℚ`, and fallible operations as
`Except String`.  Timer-driven behaviour is modelled discretely: time advances
only at scheduler boundaries, and clock readings are passed in explicitly.
-/

namespace MyCobot

/-! ## Protocol constants (command-ids.ts, `PROTOCOL` and `COMMAND_IDS`) -/

def PROTOCOL_HEADER : Nat := 0xFE
def PROTOCOL_FOOTER : Nat := 0xFA
def PROTOCOL_HEADER_SIZE : Nat := 2
def PROTOCOL_FOOTER_SIZE : Nat := 1
def PROTOCOL_LENGTH_SIZE : Nat := 1
def PROTOCOL_COMMAND_ID_SIZE : Nat := 1
def PROTOCOL_MIN_PACKET_SIZE : Nat := 5

def SOFTWARE_VERSION : Nat := 0x02
def GET_ANGLES : Nat := 0x20
def SEND_ANGLES : Nat := 0x22
def SEND_ANGLE : Nat := 0x21
def GET_COORDS : Nat := 0x23
def SEND_COORD : Nat := 0x24
def SEND_COORDS : Nat := 0x25
def IS_IN_POSITION : Nat := 0x2A
def IS_MOVING : Nat := 0x2B
def POWER_ON : Nat := 0x10
def POWER_OFF : Nat := 0x11
def IS_POWER_ON : Nat := 0x12
def RELEASE_ALL_SERVOS : Nat := 0x13
def IS_SERVO_ENABLE : Nat := 0x50
def RELEASE_SERVO : Nat := 0x56
def GET_SPEED : Nat := 0x40
def GET_GRIPPER_VALUE : Nat := 0x65
def SET_GRIPPER_STATE : Nat := 0x66
def IS_GRIPPER_MOVING : Nat := 0x69
def GET_ENCODER : Nat := 0x3B
def GET_ENCODERS : Nat := 0x3D

/-! ## Node.js Buffer primitives

`Buffer.writeInt16BE` stores a signed 16-bit value as two big-endian bytes and
throws a RangeError when the value is outside [-32768, 32767]; that check is
the `Except` error case below.  `Buffer.readInt16BE` reads two big-endian
bytes as a signed 16-bit value.  `Buffer.writeUInt8` throws unless the value
is an integer in [0, 255]. -/

def writeInt16BECheck (n : ℤ) : Except String (List Nat) :=
  if n < -32768 ∨ 32767 < n then
    Except.error "The value of n is out of range"
  else
    Except.ok [(n % 65536).toNat / 256, (n % 65536).toNat % 256]

def readInt16BE (b1 b0 : Nat) : ℤ :=
  if b1 * 256 + b0 < 32768 then (b1 * 256 + b0 : ℤ)
  else (b1 * 256 + b0 : ℤ) - 65536

def writeUInt8Check (q : ℚ) : Except String Nat :=
  if q.den = 1 ∧ 0 ≤ q.num ∧ q.num ≤ 255 then Except.ok q.num.toNat
  else Except.error "The value of q is out of range"

/-- JavaScript `Math.round`: round half toward positive infinity. -/
def jsRound (q : ℚ) : ℤ := ⌊q + 1 / 2⌋

theorem int16_roundtrip (n : ℤ) (h1 : -32768 ≤ n) (h2 : n ≤ 32767) :
    readInt16BE ((n % 65536).toNat / 256) ((n % 65536).toNat % 256) = n := by
  unfold readInt16BE
  have hmod : ((n % 65536).toNat : ℤ) = n % 65536 := by
    have : (0 : ℤ) ≤ n % 65536 := Int.emod_nonneg n (by norm_num)
    omega
  have hdm : (n % 65536).toNat / 256 * 256 + (n % 65536).toNat % 256
      = (n % 65536).toNat := by
    omega
  split <;> omega

/-! ## Response decoding (mycobot-controller.ts, `_decodeData`)

The vector loop reads `data.readInt16BE(i) / 100.0` for `i = 0, 2, 4, ...`;
on an odd-length payload the final read starts at the last byte and Node
throws a RangeError, the `Except` error case below. -/

inductive Decoded where
  | num (value : ℚ)
  | vec (values : List ℚ)
  | boolv (b : Bool)
  | raw (bytes : List Nat)
  deriving DecidableEq, Repr

def decodeVector : List Nat → Except String (List ℚ)
  | [] => Except.ok []
  | [_] => Except.error "Attempt to access memory outside buffer bounds"
  | b1 :: b0 :: rest =>
    match decodeVector rest with
    | Except.ok tail => Except.ok (((readInt16BE b1 b0 : ℤ) : ℚ) / 100 :: tail)
    | Except.error e => Except.error e

/-- `_decodeData`.  The source returns the decoded list whether or not it has
exactly 6 entries (the length-6 branch only changes the TypeScript type), so
both branches map to `Decoded.vec`.  `data[0] === 1` on an empty buffer
compares `undefined` with 1 and yields `false`, matching `getD` default 0. -/
def decodeData (commandId : Nat) (data : List Nat) : Except String Decoded :=
  if commandId = SOFTWARE_VERSION then
    Except.ok (Decoded.num (if 0 < data.length then (data.getD 0 0 : ℚ) else 0))
  else if commandId = GET_ANGLES ∨ commandId = GET_COORDS ∨ commandId = GET_ENCODERS then
    match decodeVector data with
    | Except.ok values => Except.ok (Decoded.vec values)
    | Except.error e => Except.error e
  else if commandId = IS_POWER_ON ∨ commandId = IS_GRIPPER_MOVING ∨ commandId = IS_MOVING
      ∨ commandId = IS_IN_POSITION ∨ commandId = IS_SERVO_ENABLE then
    Except.ok (Decoded.boolv (data.getD 0 0 == 1))
  else if commandId = GET_ENCODER then
    match data with
    | b1 :: b0 :: _ => Except.ok (Decoded.num (((readInt16BE b1 b0 : ℤ) : ℚ) / 100))
    | _ => Except.error "Attempt to access memory outside buffer bounds"
  else if commandId = GET_SPEED ∨ commandId = GET_GRIPPER_VALUE then
    Except.ok (Decoded.num (if 0 < data.length then (data.getD 0 0 : ℚ) else 0))
  else
    Except.ok (Decoded.raw data)

/-! ## Command payload encoding (mycobot-controller.ts, `_encodeData`)

The SEND_ANGLES branch writes six `writeInt16BE(round(angle * 100), i * 2)`
fields at consecutive even offsets of a 13-byte buffer followed by
`writeUInt8(speed, 12)`; consecutive non-overlapping writes into a fresh
buffer are modelled as concatenation of the individual fields. -/

def encodeInt16Fields : List ℚ → Except String (List Nat)
  | [] => Except.ok []
  | q :: rest =>
    match writeInt16BECheck (jsRound (q * 100)) with
    | Except.error e => Except.error e
    | Except.ok field =>
      match encodeInt16Fields rest with
      | Except.error e => Except.error e
      | Except.ok fields => Except.ok (field ++ fields)

def encodeSendAngles (data : List ℚ) : Except String (List Nat) :=
  if data.length < 7 then Except.error "SEND_ANGLES requires 7 data values"
  else
    match encodeInt16Fields (data.take 6) with
    | Except.error e => Except.error e
    | Except.ok fields =>
      match writeUInt8Check (data.getD 6 0) with
      | Except.error e => Except.error e
      | Except.ok speedByte => Except.ok (fields ++ [speedByte])

theorem jsRound_le (q : ℚ) : ((jsRound q : ℤ) : ℚ) ≤ q + 1 / 2 :=
  Int.floor_le _

theorem lt_jsRound_add_one (q : ℚ) : q + 1 / 2 < ((jsRound q : ℤ) : ℚ) + 1 :=
  Int.lt_floor_add_one _

theorem jsRound_close (q : ℚ) :
    |((jsRound (q * 100) : ℤ) : ℚ) / 100 - q| ≤ 1 / 100 := by
  have h1 := jsRound_le (q * 100)
  have h2 := lt_jsRound_add_one (q * 100)
  rw [abs_le]
  constructor <;> linarith

theorem jsRound_mem_int16 (q : ℚ) (hlo : -32768 ≤ 100 * q) (hhi : 100 * q ≤ 32767) :
    -32768 ≤ jsRound (q * 100) ∧ jsRound (q * 100) ≤ 32767 := by
  constructor
  · have : ((-32768 : ℤ) : ℚ) ≤ q * 100 + 1 / 2 := by push_cast; linarith
    exact Int.le_floor.mpr this
  · have hle : jsRound (q * 100) ≤ jsRound (32767 : ℚ) := by
      unfold jsRound
      exact Int.floor_le_floor (by linarith)
    have : jsRound (32767 : ℚ) = 32767 := by
      unfold jsRound
      rw [show ((32767 : ℚ) + 1 / 2) = ((32767 : ℤ) : ℚ) + 1 / 2 by norm_num,
        Int.floor_int_add]
      norm_num
    omega

theorem encodeInt16Fields_ok (l : List ℚ)
    (h : ∀ q ∈ l, -32768 ≤ 100 * q ∧ 100 * q ≤ 32767) :
    ∃ bs, encodeInt16Fields l = Except.ok bs ∧ bs.length = 2 * l.length ∧
      decodeVector bs
        = Except.ok (l.map (fun q => ((jsRound (q * 100) : ℤ) : ℚ) / 100)) := by
  induction l with
  | nil => exact ⟨[], rfl, rfl, rfl⟩
  | cons q rest ih =>
    obtain ⟨hq, hrest⟩ := List.forall_mem_cons.mp h
    obtain ⟨bs, hbs, hlen, hdec⟩ := ih hrest
    obtain ⟨hlo, hhi⟩ := jsRound_mem_int16 q hq.1 hq.2
    set n := jsRound (q * 100) with hn
    have henc : writeInt16BECheck n
        = Except.ok [(n % 65536).toNat / 256, (n % 65536).toNat % 256] := by
      unfold writeInt16BECheck
      rw [if_neg (by omega)]
    refine ⟨(n % 65536).toNat / 256 :: (n % 65536).toNat % 256 :: bs, ?_, ?_, ?_⟩
    · simp only [encodeInt16Fields, ← hn, henc, hbs]
      rfl
    · simp [hlen]
      ring
    · simp only [decodeVector, hdec, List.map_cons]
      rw [int16_roundtrip n hlo hhi]

/-- C1: encoding a 6-value position vector with the multi-value move encoding
(value scaled by 100, rounded, signed 16-bit big-endian) followed by the speed
byte, then decoding the 12 value bytes with the vector decoder (each 2 bytes
read as signed 16-bit big-endian, divided by 100) returns a vector whose every
component is within 0.01 of the original. -/
theorem c1_move_encode_decode_roundtrip (v : List ℚ) (speed : ℕ)
    (hv6 : v.length = 6) (hspeed : speed ≤ 100)
    (hv : ∀ q ∈ v, -32768 ≤ 100 * q ∧ 100 * q ≤ 32767) :
    ∃ bytes w, encodeSendAngles (v ++ [(speed : ℚ)]) = Except.ok bytes ∧
      decodeVector (bytes.take 12) = Except.ok w ∧
      List.Forall₂ (fun d o => |d - o| ≤ 1 / 100) w v := by
  obtain ⟨bs, hbs, hlen, hdec⟩ := encodeInt16Fields_ok v hv
  have htake : (v ++ [(speed : ℚ)]).take 6 = v := List.take_left' hv6
  have hget : (v ++ [(speed : ℚ)]).getD 6 0 = (speed : ℚ) := by
    simp [List.getD, List.getElem?_append_right, hv6]
  have hu8 : writeUInt8Check ((speed : ℕ) : ℚ) = Except.ok speed := by
    unfold writeUInt8Check
    rw [if_pos ⟨Rat.den_natCast speed, by simp, by rw [Rat.num_natCast]; omega⟩]
    simp
  refine ⟨bs ++ [speed], v.map (fun q => ((jsRound (q * 100) : ℤ) : ℚ) / 100),
    ?_, ?_, ?_⟩
  · unfold encodeSendAngles
    rw [if_neg (by simp [hv6]), htake, hbs, hget, hu8]
  · rw [List.take_left' (by omega : bs.length = 12), hdec]
  · rw [List.forall₂_map_left_iff]
    exact List.forall₂_same.mpr fun q _ => jsRound_close q

/-- Witness for C1 at the concrete vector [0, 10.5, -90.25, 179.99, -180, 1]
with speed 50. -/
theorem c1_witness :
    ∃ bytes w,
      encodeSendAngles ([0, 21 / 2, -361 / 4, 17999 / 100, -180, 1] ++ [((50 : ℕ) : ℚ)])
        = Except.ok bytes ∧
      decodeVector (bytes.take 12) = Except.ok w ∧
      List.Forall₂ (fun d o => |d - o| ≤ 1 / 100) w
        [0, 21 / 2, -361 / 4, 17999 / 100, -180, 1] :=
  c1_move_encode_decode_roundtrip [0, 21 / 2, -361 / 4, 17999 / 100, -180, 1] 50
    (by decide) (by decide) (by norm_num)

/-! ## Outgoing frame construction (mycobot-controller.ts, `_sendCommand`)

`_sendCommand` allocates a zeroed buffer of
HEADER_SIZE + LENGTH_SIZE + COMMAND_ID_SIZE + payload length + FOOTER_SIZE
bytes and fills it with sequential `writeUInt8` calls and one `copy`; those
writes are modelled as `List.set` and `bufCopy` on a `List.replicate` buffer.
The length-byte and per-byte 0..255 range checks of `writeUInt8` always pass
for the payload sizes this protocol produces and are not modelled here. -/

def bufCopy : List Nat → List Nat → Nat → List Nat
  | [], dst, _ => dst
  | b :: bs, dst, off => bufCopy bs (dst.set off b) (off + 1)

def buildCommandFrame (commandId : Nat) (encodedData : List Nat) : List Nat :=
  ((bufCopy encodedData
      (((((List.replicate
        (PROTOCOL_HEADER_SIZE + PROTOCOL_LENGTH_SIZE + PROTOCOL_COMMAND_ID_SIZE
          + encodedData.length + PROTOCOL_FOOTER_SIZE) 0).set
        0 PROTOCOL_HEADER).set
        1 PROTOCOL_HEADER).set
        2 (encodedData.length + 2)).set
        3 commandId)
      4).set
    (4 + encodedData.length) PROTOCOL_FOOTER)

theorem set_at_append_length (l₁ : List Nat) (a b : Nat) (l₂ : List Nat) :
    (l₁ ++ a :: l₂).set l₁.length b = l₁ ++ b :: l₂ := by
  induction l₁ with
  | nil => rfl
  | cons x xs ih => simp [List.set, ih]

theorem bufCopy_append (src : List Nat) :
    ∀ (pre tail : List Nat), src.length ≤ tail.length →
      bufCopy src (pre ++ tail) pre.length = pre ++ src ++ tail.drop src.length := by
  induction src with
  | nil => intro pre tail _; simp [bufCopy]
  | cons b bs ih =>
    intro pre tail hle
    match tail with
    | [] => simp at hle
    | t :: ts =>
      have h1 : (pre ++ t :: ts).set pre.length b = (pre ++ [b]) ++ ts := by
        rw [set_at_append_length]
        simp
      have h2 : pre.length + 1 = (pre ++ [b]).length := by simp
      simp only [bufCopy, h1, h2]
      rw [ih (pre ++ [b]) ts (by simpa using hle)]
      simp

/-- C5: the frame written to the transport is exactly
HEADER HEADER LEN CMD PAYLOAD FOOTER with both header bytes 0xFE, footer byte
0xFA, and LEN equal to the payload byte count plus 2. -/
theorem c5_frame_layout (commandId : Nat) (payload : List Nat) :
    buildCommandFrame commandId payload
      = PROTOCOL_HEADER :: PROTOCOL_HEADER :: (payload.length + 2)
          :: commandId :: (payload ++ [PROTOCOL_FOOTER]) := by
  unfold buildCommandFrame PROTOCOL_HEADER_SIZE PROTOCOL_LENGTH_SIZE
    PROTOCOL_COMMAND_ID_SIZE PROTOCOL_FOOTER_SIZE
  have hrep : List.replicate (2 + 1 + 1 + payload.length + 1) 0
      = 0 :: 0 :: 0 :: 0 :: List.replicate (payload.length + 1) 0 := by
    rw [show 2 + 1 + 1 + payload.length + 1 = payload.length + 1 + 4 by omega]
    simp [List.replicate_succ, List.replicate_add]
  rw [hrep]
  simp only [List.set]
  have hpre : (PROTOCOL_HEADER :: PROTOCOL_HEADER :: (payload.length + 2)
        :: commandId :: List.replicate (payload.length + 1) 0)
      = [PROTOCOL_HEADER, PROTOCOL_HEADER, payload.length + 2, commandId]
        ++ List.replicate (payload.length + 1) 0 := by simp
  rw [hpre,
    show (4 : Nat) = [PROTOCOL_HEADER, PROTOCOL_HEADER, payload.length + 2,
      commandId].length by simp,
    bufCopy_append payload _ _ (by simp)]
  have hdrop : (List.replicate (payload.length + 1) 0).drop payload.length
      = [0] := by
    rw [List.drop_replicate]
    simp
  rw [hdrop]
  have hx : (payload ++ (0 : Nat) :: []).set payload.length PROTOCOL_FOOTER
      = payload ++ PROTOCOL_FOOTER :: [] := set_at_append_length payload 0 _ []
  simp only [List.cons_append, List.nil_append, List.length_cons,
    List.length_nil]
  rw [show 0 + 1 + 1 + 1 + 1 + payload.length = payload.length + 3 + 1 by omega,
    List.set_cons_succ, show payload.length + 3 = payload.length + 2 + 1 by omega,
    List.set_cons_succ, show payload.length + 2 = payload.length + 1 + 1 by omega,
    List.set_cons_succ, show payload.length + 1 = payload.length + 0 + 1 by omega,
    List.set_cons_succ, show payload.length + 0 = payload.length by omega]
  simp [hx]

/-! ## Pending-command correlation (mycobot-controller.ts, `_handleResponse`
and the timeout callback of `_sendCommand`)

A pending entry pairs the command id with an opaque caller identifier that
stands for the resolve/reject closure pair pushed onto `responseQueue`.
JavaScript `find` + `indexOf` over reference-distinct queue objects selects
the first matching element and its index, exactly like `findIndex`;
`jsFindIndex` models both paths.  `splice(index, 1)` is `List.eraseIdx`. -/

structure PendingEntry where
  command : Nat
  callerId : Nat
  deriving DecidableEq, Repr

def jsFindIndex (p : PendingEntry → Bool) : List PendingEntry → Option Nat
  | [] => none
  | a :: rest => if p a then some 0 else (jsFindIndex p rest).map (· + 1)

/-- `_handleResponse`: locate the first pending entry whose command id matches
the frame, remove it from the queue and resolve it; a frame matching nothing
resolves nothing and leaves the queue unchanged. -/
def handleResponse (queue : List PendingEntry) (commandId : Nat) :
    List PendingEntry × Option PendingEntry :=
  match jsFindIndex (fun item => item.command == commandId) queue with
  | some i => (queue.eraseIdx i, queue[i]?)
  | none => (queue, none)

/-- The timeout callback in `_sendCommand`: remove the first entry whose
command id matches, then reject the timed-out caller with a timeout error
(the rejection happens whether or not an entry was found). -/
def onTimeout (queue : List PendingEntry) (commandId : Nat) :
    List PendingEntry × Except String Unit :=
  (match jsFindIndex (fun item => item.command == commandId) queue with
   | some i => queue.eraseIdx i
   | none => queue,
   Except.error "Command timeout")

theorem jsFindIndex_first (p : PendingEntry → Bool) :
    ∀ (q : List PendingEntry) (i : Nat) (h : i < q.length),
      p (q.get ⟨i, h⟩) = true →
      (∀ j (hj : j < i), p (q.get ⟨j, hj.trans h⟩) = false) →
      jsFindIndex p q = some i := by
  intro q
  induction q with
  | nil => intro i h; exact absurd h (by simp)
  | cons a rest ih =>
    intro i h hp hfirst
    match i with
    | 0 => simp only [jsFindIndex, List.get] at hp ⊢; rw [if_pos hp]
    | j + 1 =>
      have ha : p a = false := hfirst 0 (Nat.succ_pos j)
      simp only [jsFindIndex, ha, Bool.false_eq_true, if_false]
      rw [ih j (Nat.lt_of_succ_lt_succ h) hp
        (fun k hk => hfirst (k + 1) (Nat.succ_lt_succ hk))]
      rfl

theorem jsFindIndex_exists (p : PendingEntry → Bool) :
    ∀ q : List PendingEntry, (∃ x ∈ q, p x = true) →
      ∃ i, ∃ h : i < q.length,
        jsFindIndex p q = some i ∧ p (q.get ⟨i, h⟩) = true := by
  intro q
  induction q with
  | nil => rintro ⟨x, hx, -⟩; exact absurd hx (List.not_mem_nil x)
  | cons a rest ih =>
    rintro ⟨x, hx, hpx⟩
    by_cases hpa : p a = true
    · exact ⟨0, Nat.succ_pos _, by simp [jsFindIndex, hpa], hpa⟩
    · have hxr : x ∈ rest := by
        rcases List.mem_cons.mp hx with rfl | hr
        · exact absurd hpx hpa
        · exact hr
      obtain ⟨i, h, hfind, hp⟩ := ih ⟨x, hxr, hpx⟩
      refine ⟨i + 1, Nat.succ_lt_succ h, ?_, hp⟩
      simp only [jsFindIndex, hpa, Bool.false_eq_true, if_false, hfind]
      rfl

theorem jsFindIndex_none (p : PendingEntry → Bool) :
    ∀ q : List PendingEntry, (∀ x ∈ q, p x = false) → jsFindIndex p q = none := by
  intro q
  induction q with
  | nil => intro; rfl
  | cons a rest ih =>
    intro h
    have hpa : p a = false := h a (List.mem_cons_self a rest)
    simp only [jsFindIndex, hpa, Bool.false_eq_true, if_false]
    rw [ih fun x hx => h x (List.mem_cons_of_mem a hx)]
    rfl

/-- C2: for every pending-queue state and incoming frame, the dispatcher
resolves the earliest-registered pending entry whose command id matches the
frame (FIFO per id), removing exactly that entry; in particular two pending
calls with the same command id are resolved in submission order by two
successive responses for that id. -/
theorem c2_fifo_correlation :
    (∀ (q : List PendingEntry) (cmd : Nat) (i : Nat) (h : i < q.length),
      (q.get ⟨i, h⟩).command = cmd →
      (∀ j (hj : j < i), (q.get ⟨j, hj.trans h⟩).command ≠ cmd) →
      handleResponse q cmd = (q.eraseIdx i, some (q.get ⟨i, h⟩)))
    ∧ (∀ cmd a b : Nat,
      handleResponse [⟨cmd, a⟩, ⟨cmd, b⟩] cmd = ([⟨cmd, b⟩], some ⟨cmd, a⟩)
      ∧ handleResponse [⟨cmd, b⟩] cmd = ([], some ⟨cmd, b⟩)) := by
  constructor
  · intro q cmd i h hm hfirst
    have hidx : jsFindIndex (fun item => item.command == cmd) q = some i :=
      jsFindIndex_first _ q i h
        (by simp only [List.get_eq_getElem] at hm; simp [hm])
        (fun j hj => by
          have hne := hfirst j hj
          simp only [List.get_eq_getElem] at hne
          simp [hne])
    unfold handleResponse
    rw [hidx]
    show (q.eraseIdx i, q[i]?) = (q.eraseIdx i, some (q.get ⟨i, h⟩))
    rw [List.getElem?_eq_getElem h, List.get_eq_getElem]
  · intro cmd a b
    constructor <;> simp [handleResponse, jsFindIndex]

/-- Witness for C2: two pending calls with command id 0x20 from callers 1 and
2, registered in that order, are resolved in that order by two responses. -/
theorem c2_witness :
    handleResponse [⟨0x20, 1⟩, ⟨0x20, 2⟩] 0x20 = ([⟨0x20, 2⟩], some ⟨0x20, 1⟩)
    ∧ handleResponse [⟨0x20, 2⟩] 0x20 = ([], some ⟨0x20, 2⟩) :=
  c2_fifo_correlation.2 0x20 1 2

/-- C3: a command whose deadline passes has the matching pending entry removed
and its caller rejected with the protocol timeout error; a response whose
command id matches no pending entry resolves no caller and leaves the pending
set unchanged. -/
theorem c3_timeout_cleanup :
    (∀ (q : List PendingEntry) (cmd : Nat) (e : PendingEntry),
      e ∈ q → e.command = cmd →
      (∀ e' ∈ q, e'.command = cmd → e' = e) →
      ∃ i, ∃ h : i < q.length, q.get ⟨i, h⟩ = e
        ∧ onTimeout q cmd = (q.eraseIdx i, Except.error "Command timeout"))
    ∧ (∀ (q : List PendingEntry) (cmd : Nat),
      (∀ e ∈ q, e.command ≠ cmd) → handleResponse q cmd = (q, none)) := by
  constructor
  · intro q cmd e he hm huniq
    obtain ⟨i, h, hfind, hp⟩ :=
      jsFindIndex_exists (fun item => item.command == cmd) q
        ⟨e, he, by simp [hm]⟩
    have hget : q.get ⟨i, h⟩ = e :=
      huniq _ (q.get_mem i h) (by simpa using hp)
    refine ⟨i, h, hget, ?_⟩
    unfold onTimeout
    rw [hfind]
  · intro q cmd hnone
    unfold handleResponse
    rw [jsFindIndex_none _ q (fun x hx => by simp [hnone x hx])]

/-- Witness for C3: a lone pending SEND_ANGLES call timing out is removed and
rejected; a later response for that id then matches nothing and changes
nothing. -/
theorem c3_witness :
    (∃ i, ∃ h : i < ([⟨0x22, 5⟩] : List PendingEntry).length,
      ([⟨0x22, 5⟩] : List PendingEntry).get ⟨i, h⟩ = ⟨0x22, 5⟩
      ∧ onTimeout [⟨0x22, 5⟩] 0x22
          = (([⟨0x22, 5⟩] : List PendingEntry).eraseIdx i,
            Except.error "Command timeout"))
    ∧ handleResponse [] 0x22 = ([], none) :=
  ⟨c3_timeout_cleanup.1 [⟨0x22, 5⟩] 0x22 ⟨0x22, 5⟩ (by decide) (by decide)
      (by decide),
    c3_timeout_cleanup.2 [] 0x22 (by decide)⟩

/-! ## Incoming frame extraction (mycobot-controller.ts, `_parseResponses`)

The while loop is modelled with explicit fuel; one unit of fuel per loop
iteration.  Every iteration that recurses consumes at least three buffered
bytes, so `buf.length` units are always enough, which `parseAux_fuel_eq`
makes precise.  `alignedPacketLen` is the `packetLength` computed from the
length byte after resynchronisation; buffer indexing out of bounds yields the
`getD` default, mirroring `undefined` only in frames no caller produces. -/

def findHeaderIdx : List Nat → Option Nat
  | a :: b :: rest =>
    if a = PROTOCOL_HEADER ∧ b = PROTOCOL_HEADER then some 0
    else (findHeaderIdx (b :: rest)).map (· + 1)
  | _ => none

def alignedPacketLen (b : List Nat) : Nat :=
  PROTOCOL_HEADER_SIZE + PROTOCOL_LENGTH_SIZE + b.getD 2 0

/-- One iteration of the loop body after resynchronisation, parameterised by
the continuation that parses the rest of the buffer. -/
def parseAligned (recur : List Nat → List (Nat × List Nat) × List Nat)
    (b : List Nat) : List (Nat × List Nat) × List Nat :=
  if b.length < 3 then ([], b)
  else if b.length < alignedPacketLen b then ([], b)
  else if (b.take (alignedPacketLen b)).getD (alignedPacketLen b - 1) 0
      = PROTOCOL_FOOTER then
    (((b.take (alignedPacketLen b)).getD 3 0,
        (b.take (alignedPacketLen b - 1)).drop 4)
      :: (recur (b.drop (alignedPacketLen b))).1,
      (recur (b.drop (alignedPacketLen b))).2)
  else recur (b.drop (alignedPacketLen b))

def parseResponsesAux : Nat → List Nat → List (Nat × List Nat) × List Nat
  | 0, buf => ([], buf)
  | fuel + 1, buf =>
    if buf.length < PROTOCOL_MIN_PACKET_SIZE then ([], buf)
    else
      match findHeaderIdx buf with
      | none => ([], [])
      | some s => parseAligned (parseResponsesAux fuel) (buf.drop s)

def parseResponses (buf : List Nat) : List (Nat × List Nat) × List Nat :=
  parseResponsesAux buf.length buf

theorem parseAligned_congr
    (recur1 recur2 : List Nat → List (Nat × List Nat) × List Nat)
    (b : List Nat)
    (hrec : recur1 (b.drop (alignedPacketLen b))
      = recur2 (b.drop (alignedPacketLen b))) :
    parseAligned recur1 b = parseAligned recur2 b := by
  unfold parseAligned
  rw [hrec]

theorem parseAux_fuel_succ :
    ∀ (fuel : Nat) (buf : List Nat), buf.length ≤ fuel →
      parseResponsesAux (fuel + 1) buf = parseResponsesAux fuel buf := by
  intro fuel
  induction fuel with
  | zero =>
    intro buf hlen
    have : buf = [] := List.length_eq_zero.mp (Nat.le_zero.mp hlen)
    subst this
    rfl
  | succ f ih =>
    intro buf hlen
    show parseResponsesAux (f + 1 + 1) buf = parseResponsesAux (f + 1) buf
    unfold parseResponsesAux
    by_cases hsmall : buf.length < PROTOCOL_MIN_PACKET_SIZE
    · rw [if_pos hsmall, if_pos hsmall]
    · rw [if_neg hsmall, if_neg hsmall]
      match hfind : findHeaderIdx buf with
      | none => rfl
      | some s =>
        apply parseAligned_congr
        apply ih
        have h1 : ((buf.drop s).drop (alignedPacketLen (buf.drop s))).length
            = buf.length - s - alignedPacketLen (buf.drop s) := by
          simp [Nat.sub_sub]
        have h2 : 3 ≤ alignedPacketLen (buf.drop s) := by
          unfold alignedPacketLen PROTOCOL_HEADER_SIZE PROTOCOL_LENGTH_SIZE
          omega
        omega

theorem parseAux_fuel_eq :
    ∀ (f1 f2 : Nat) (buf : List Nat), buf.length ≤ f1 → buf.length ≤ f2 →
      parseResponsesAux f1 buf = parseResponsesAux f2 buf := by
  have hstep : ∀ (k base : Nat) (buf : List Nat), buf.length ≤ base →
      parseResponsesAux (base + k) buf = parseResponsesAux base buf := by
    intro k
    induction k with
    | zero => intro base buf _; rfl
    | succ n ih =>
      intro base buf hlen
      rw [show base + (n + 1) = (base + n) + 1 by omega,
        parseAux_fuel_succ (base + n) buf (by omega), ih base buf hlen]
  intro f1 f2 buf h1 h2
  rw [show f1 = buf.length + (f1 - buf.length) by omega,
    show f2 = buf.length + (f2 - buf.length) by omega,
    hstep (f1 - buf.length) buf.length buf (Nat.le_refl _),
    hstep (f2 - buf.length) buf.length buf (Nat.le_refl _)]

theorem getD_take (l : List Nat) (n i d : Nat) (h : i < n) :
    (l.take n).getD i d = l.getD i d := by
  rw [List.getD_eq_getElem?_getD, List.getD_eq_getElem?_getD,
    List.getElem?_take_of_lt h]

/-- C4: a buffered byte sequence that starts with the two header sentinels and
holds a complete frame whose terminal byte is not the footer sentinel yields
no frame and no error from the extractor; exactly the computed frame length
(3 + length byte) is consumed, and parsing continues on the remainder. -/
theorem c4_bad_footer_consumed (len : Nat) (rest : List Nat)
    (hcomplete : len ≤ rest.length) (hmin : 2 ≤ rest.length)
    (hfooter : (PROTOCOL_HEADER :: PROTOCOL_HEADER :: len :: rest).getD
        (2 + len) 0 ≠ PROTOCOL_FOOTER) :
    parseResponses (PROTOCOL_HEADER :: PROTOCOL_HEADER :: len :: rest)
      = parseResponses (rest.drop len) := by
  have hpl : alignedPacketLen (PROTOCOL_HEADER :: PROTOCOL_HEADER :: len :: rest)
      = 3 + len := by
    unfold alignedPacketLen PROTOCOL_HEADER_SIZE PROTOCOL_LENGTH_SIZE
    rfl
  have hfh : findHeaderIdx (PROTOCOL_HEADER :: PROTOCOL_HEADER :: len :: rest)
      = some 0 := by
    unfold findHeaderIdx
    rw [if_pos ⟨rfl, rfl⟩]
  have hfooter2 : ((PROTOCOL_HEADER :: PROTOCOL_HEADER :: len :: rest).take
        (3 + len)).getD (3 + len - 1) 0 ≠ PROTOCOL_FOOTER := by
    rw [show 3 + len - 1 = 2 + len by omega,
      getD_take _ _ _ _ (by omega)]
    exact hfooter
  have hlenb : (PROTOCOL_HEADER :: PROTOCOL_HEADER :: len :: rest).length
      = rest.length + 3 := by simp
  have hdrop : (PROTOCOL_HEADER :: PROTOCOL_HEADER :: len :: rest).drop (3 + len)
      = rest.drop len := by
    rw [show 3 + len = len + 2 + 1 by omega, List.drop_succ_cons,
      show len + 2 = len + 1 + 1 by omega, List.drop_succ_cons,
      show len + 1 = len + 1 by omega, List.drop_succ_cons]
  show parseResponsesAux
      (PROTOCOL_HEADER :: PROTOCOL_HEADER :: len :: rest).length
      (PROTOCOL_HEADER :: PROTOCOL_HEADER :: len :: rest) = _
  rw [show (PROTOCOL_HEADER :: PROTOCOL_HEADER :: len :: rest).length
    = (rest.length + 2) + 1 from by simp]
  unfold parseResponsesAux
  rw [if_neg (by
    unfold PROTOCOL_MIN_PACKET_SIZE
    rw [hlenb]
    omega)]
  rw [hfh]
  show parseAligned (parseResponsesAux (rest.length + 2))
      ((PROTOCOL_HEADER :: PROTOCOL_HEADER :: len :: rest).drop 0) = _
  rw [List.drop_zero]
  unfold parseAligned
  rw [hpl, if_neg (by rw [hlenb]; omega), if_neg (by rw [hlenb]; omega),
    if_neg hfooter2, hdrop]
  unfold parseResponses
  exact parseAux_fuel_eq _ _ _ (by rw [List.length_drop]; omega) (Nat.le_refl _)

/-- Witness for C4: the buffer FE FE 02 20 00 99 holds a complete frame whose
terminal byte 0x00 is not the footer; the extractor consumes it and parses
the remaining byte 0x99 the same way it would parse it alone. -/
theorem c4_witness :
    parseResponses (PROTOCOL_HEADER :: PROTOCOL_HEADER :: 2 :: [0x20, 0x00, 0x99])
      = parseResponses ([0x20, 0x00, 0x99].drop 2) :=
  c4_bad_footer_consumed 2 [0x20, 0x00, 0x99] (by decide) (by decide) (by decide)

/-! ## Public operations with argument validation (mycobot-controller.ts,
`sendAngles`, `setGripperState`, `releaseServo`)

Each operation checks its arguments and throws before `_sendCommand` runs;
on success the value is the full frame handed to `port.write`.  Gripper
`state` and `servoId` appear as integers, `speed` and angles as JavaScript
numbers. -/

def encodeGripper (flagOrValue speed : ℚ) : Except String (List Nat) :=
  match writeUInt8Check flagOrValue with
  | Except.error e => Except.error e
  | Except.ok b0 =>
    match writeUInt8Check speed with
    | Except.error e => Except.error e
    | Except.ok b1 => Except.ok [b0, b1]

def sendAnglesOp (angles : List ℚ) (speed : ℚ) : Except String (List Nat) :=
  if angles.length ≠ 6 then
    Except.error "Angles must be an array of exactly 6 numbers"
  else if speed < 0 ∨ speed > 100 then
    Except.error "Speed must be between 0 and 100"
  else
    match encodeSendAngles (angles ++ [speed]) with
    | Except.error e => Except.error e
    | Except.ok payload => Except.ok (buildCommandFrame SEND_ANGLES payload)

def setGripperStateOp (state : ℤ) (speed : ℚ) : Except String (List Nat) :=
  if state ≠ 0 ∧ state ≠ 1 then
    Except.error "Gripper state must be 0 (open) or 1 (close)"
  else if speed < 0 ∨ speed > 100 then
    Except.error "Speed must be between 0 and 100"
  else
    match encodeGripper (state : ℚ) speed with
    | Except.error e => Except.error e
    | Except.ok payload => Except.ok (buildCommandFrame SET_GRIPPER_STATE payload)

def releaseServoOp (servoId : ℤ) : Except String (List Nat) :=
  if servoId < 1 ∨ servoId > 6 then
    Except.error "Servo ID must be between 1 and 6"
  else
    Except.ok (buildCommandFrame RELEASE_SERVO [(servoId % 256).toNat])

/-- C6: an argument outside its contractual range (vector length 6, speed in
[0, 100], gripper state in 0 or 1, servo id in [1, 6]) makes the operation
fail synchronously with a validation error: no encoding happens and no frame
is produced. -/
theorem c6_validation_before_send :
    (∀ (angles : List ℚ) (speed : ℚ), angles.length ≠ 6 →
      sendAnglesOp angles speed
        = Except.error "Angles must be an array of exactly 6 numbers")
    ∧ (∀ (angles : List ℚ) (speed : ℚ), angles.length = 6 →
      speed < 0 ∨ speed > 100 →
      sendAnglesOp angles speed
        = Except.error "Speed must be between 0 and 100")
    ∧ (∀ (state : ℤ) (speed : ℚ), state ≠ 0 → state ≠ 1 →
      setGripperStateOp state speed
        = Except.error "Gripper state must be 0 (open) or 1 (close)")
    ∧ (∀ (state : ℤ) (speed : ℚ), speed < 0 ∨ speed > 100 →
      ∃ msg, setGripperStateOp state speed = Except.error msg)
    ∧ (∀ servoId : ℤ, servoId < 1 ∨ servoId > 6 →
      releaseServoOp servoId
        = Except.error "Servo ID must be between 1 and 6") := by
  refine ⟨?_, ?_, ?_, ?_, ?_⟩
  · intro angles speed h
    unfold sendAnglesOp
    rw [if_pos h]
  · intro angles speed h6 hs
    unfold sendAnglesOp
    rw [if_neg (by omega), if_pos hs]
  · intro state speed h0 h1
    unfold setGripperStateOp
    rw [if_pos ⟨h0, h1⟩]
  · intro state speed hs
    unfold setGripperStateOp
    by_cases hstate : state ≠ 0 ∧ state ≠ 1
    · exact ⟨_, by rw [if_pos hstate]⟩
    · exact ⟨_, by rw [if_neg hstate, if_pos hs]⟩
  · intro servoId h
    unfold releaseServoOp
    rw [if_pos h]

/-- Witness for C6 at concrete out-of-range arguments: a 3-element vector, an
out-of-range speed 101, gripper state 2, speed -1, servo id 7. -/
theorem c6_witness :
    sendAnglesOp [1, 2, 3] 50
      = Except.error "Angles must be an array of exactly 6 numbers"
    ∧ sendAnglesOp [1, 2, 3, 4, 5, 6] 101
      = Except.error "Speed must be between 0 and 100"
    ∧ setGripperStateOp 2 50
      = Except.error "Gripper state must be 0 (open) or 1 (close)"
    ∧ (∃ msg, setGripperStateOp 0 (-1) = Except.error msg)
    ∧ releaseServoOp 7 = Except.error "Servo ID must be between 1 and 6" :=
  ⟨c6_validation_before_send.1 [1, 2, 3] 50 (by decide),
    c6_validation_before_send.2.1 [1, 2, 3, 4, 5, 6] 101 (by decide)
      (Or.inr (by norm_num)),
    c6_validation_before_send.2.2.1 2 50 (by decide) (by decide),
    c6_validation_before_send.2.2.2.1 0 (-1) (Or.inl (by norm_num)),
    c6_validation_before_send.2.2.2.2 7 (Or.inr (by decide))⟩

/-! ## Movement recorder (movement-recorder.ts)

The sampler loop (`_startRecordingLoop`) reads the clock at each tick and
pushes a frame whose timestamp is the tick instant minus
`recordingStartTime`.  Time is modelled discretely: the monotone list
`ticks` carries the `performance.now()` reading of each tick, and because
the first tick runs synchronously inside `startRecording` (no await between
setting `recordingStartTime` and computing `currentTime`), its reading
equals the start instant. -/

structure RFrame where
  timestamp : ℚ
  position : List ℚ
  deriving DecidableEq, Repr

def recordFrames (startTime : ℚ) (ticks : List ℚ) (positions : List (List ℚ)) :
    List RFrame :=
  List.zipWith (fun t p => RFrame.mk (t - startTime) p) ticks positions

theorem recordFrames_timestamps (startTime : ℚ) :
    ∀ (ticks : List ℚ) (positions : List (List ℚ)),
      ticks.length = positions.length →
      (recordFrames startTime ticks positions).map RFrame.timestamp
        = ticks.map (· - startTime) := by
  intro ticks
  induction ticks with
  | nil => intro positions _; rfl
  | cons t ts ih =>
    intro positions hlen
    match positions with
    | [] => simp at hlen
    | p :: ps =>
      simp only [recordFrames, List.zipWith_cons_cons, List.map_cons]
      exact congrArg _ (ih ps (by simpa using hlen))

/-- C7: every recording produced by the sampler loop has non-decreasing frame
timestamps and its first frame has timestamp 0. -/
theorem c7_recording_timestamps (startTime : ℚ) (ticks : List ℚ)
    (positions : List (List ℚ))
    (hlen : ticks.length = positions.length)
    (hmono : ticks.Chain' (· ≤ ·))
    (hfirst : ∀ t, ticks.head? = some t → t = startTime) :
    ((recordFrames startTime ticks positions).map RFrame.timestamp).Chain'
      (· ≤ ·)
    ∧ ∀ f, (recordFrames startTime ticks positions).head? = some f →
        f.timestamp = 0 := by
  constructor
  · rw [recordFrames_timestamps startTime ticks positions hlen,
      List.chain'_map]
    exact hmono.imp fun a b hab => by simpa using hab
  · intro f hf
    match ticks, positions, hf with
    | t :: ts, p :: ps, hf =>
      simp only [recordFrames, List.zipWith_cons_cons, List.head?_cons,
        Option.some.injEq] at hf
      rw [← hf]
      have := hfirst t rfl
      simp [this]

/-- Witness for C7: ticks 2, 2, 5 sampled from start instant 2 give
timestamps 0, 0, 3. -/
theorem c7_witness :
    ((recordFrames 2 [2, 2, 5] [[1], [2], [3]]).map RFrame.timestamp).Chain'
      (· ≤ ·)
    ∧ ∀ f, (recordFrames 2 [2, 2, 5] [[1], [2], [3]]).head? = some f →
        f.timestamp = 0 :=
  c7_recording_timestamps 2 [2, 2, 5] [[1], [2], [3]] (by decide)
    (by constructor <;> norm_num)
    (fun t ht => by
      simp only [List.head?_cons, Option.some.injEq] at ht
      exact ht.symm)

/-! ## Playback (movement-recorder.ts, `_playRecordingOnce`)

A playback pass is modelled as the trace of externally visible actions it
performs on an error-free, uninterrupted run: one move command per frame and,
between a frame and its successor, a sleep of the original gap divided by the
speed factor whenever that quotient is positive (`adjustedDelay > 0`). -/

inductive PlayEvent where
  | move (position : List ℚ)
  | sleep (ms : ℚ)
  deriving DecidableEq, Repr

def playTrace : List RFrame → ℚ → List PlayEvent
  | [], _ => []
  | [f], _ => [PlayEvent.move f.position]
  | f :: g :: rest, speed =>
    PlayEvent.move f.position
      :: ((if 0 < (g.timestamp - f.timestamp) / speed then
            [PlayEvent.sleep ((g.timestamp - f.timestamp) / speed)]
          else [])
        ++ playTrace (g :: rest) speed)

/-- C8: after the move command of a non-final frame the player waits exactly
the following timestamp gap divided by the speed factor; a 100 ms gap yields
a 50 ms wait at speed 2.0 and a 200 ms wait at speed 0.5. -/
theorem c8_playback_pacing :
    (∀ (f g : RFrame) (rest : List RFrame) (speed : ℚ),
      0 < (g.timestamp - f.timestamp) / speed →
      playTrace (f :: g :: rest) speed
        = PlayEvent.move f.position
            :: PlayEvent.sleep ((g.timestamp - f.timestamp) / speed)
            :: playTrace (g :: rest) speed)
    ∧ (∀ (p0 p1 : List ℚ) (t0 : ℚ),
      playTrace [RFrame.mk t0 p0, RFrame.mk (t0 + 100) p1] 2
        = [PlayEvent.move p0, PlayEvent.sleep 50, PlayEvent.move p1]
      ∧ playTrace [RFrame.mk t0 p0, RFrame.mk (t0 + 100) p1] (1 / 2)
        = [PlayEvent.move p0, PlayEvent.sleep 200, PlayEvent.move p1]) := by
  constructor
  · intro f g rest speed hpos
    simp only [playTrace, if_pos hpos, List.cons_append, List.nil_append]
  · intro p0 p1 t0
    constructor
    · simp only [playTrace]
      rw [if_pos (by ring_nf; norm_num)]
      norm_num
    · simp only [playTrace]
      rw [if_pos (by ring_nf; norm_num)]
      norm_num

/-- Witness for C8: a two-frame recording with timestamps 0 and 100 at speed
2 sleeps exactly 50 ms between the two moves. -/
theorem c8_witness :
    playTrace [RFrame.mk 0 [5], RFrame.mk 100 [6]] 2
      = PlayEvent.move [5]
          :: PlayEvent.sleep (((RFrame.mk 100 [6]).timestamp
            - (RFrame.mk 0 [5]).timestamp) / 2)
          :: playTrace [RFrame.mk 100 [6]] 2 :=
  c8_playback_pacing.1 (RFrame.mk 0 [5]) (RFrame.mk 100 [6]) [] 2
    (by norm_num)

theorem decodeVector_odd :
    ∀ data : List Nat, data.length % 2 = 1 →
      decodeVector data
        = Except.error "Attempt to access memory outside buffer bounds"
  | [], h => by simp at h
  | [_], _ => rfl
  | _ :: _ :: rest, h => by
    have hr := decodeVector_odd rest (by
      simp only [List.length_cons] at h
      omega)
    simp only [decodeVector, hr]

/-- C9: the response decoder is not total in payload length: a vector-style
response (get-angles, get-coords, get-encoders) whose payload has an odd
number of bytes makes the decoding loop read a signed 16-bit value past the
end of the buffer and throw a range error, and a single-encoder response
shorter than 2 bytes throws too. -/
theorem c9_decode_not_total (data shortData : List Nat)
    (hodd : data.length % 2 = 1) (hshort : shortData.length < 2) :
    (∃ e, decodeData GET_ANGLES data = Except.error e)
    ∧ (∃ e, decodeData GET_COORDS data = Except.error e)
    ∧ (∃ e, decodeData GET_ENCODERS data = Except.error e)
    ∧ (∃ e, decodeData GET_ENCODER shortData = Except.error e) := by
  have hvec := decodeVector_odd data hodd
  refine ⟨⟨"Attempt to access memory outside buffer bounds", ?_⟩,
    ⟨"Attempt to access memory outside buffer bounds", ?_⟩,
    ⟨"Attempt to access memory outside buffer bounds", ?_⟩,
    ⟨"Attempt to access memory outside buffer bounds", ?_⟩⟩
  · unfold decodeData
    rw [if_neg (by decide), if_pos (Or.inl rfl), hvec]
  · unfold decodeData
    rw [if_neg (by decide), if_pos (Or.inr (Or.inl rfl)), hvec]
  · unfold decodeData
    rw [if_neg (by decide), if_pos (Or.inr (Or.inr rfl)), hvec]
  · unfold decodeData
    rw [if_neg (by decide), if_neg (by decide), if_neg (by decide),
      if_pos rfl]
    match shortData, hshort with
    | [], _ => rfl
    | [_], _ => rfl

/-- Witness for C9 at the odd 3-byte payload 01 02 03 and the 1-byte
single-encoder payload 09. -/
theorem c9_witness :
    (∃ e, decodeData GET_ANGLES [1, 2, 3] = Except.error e)
    ∧ (∃ e, decodeData GET_COORDS [1, 2, 3] = Except.error e)
    ∧ (∃ e, decodeData GET_ENCODERS [1, 2, 3] = Except.error e)
    ∧ (∃ e, decodeData GET_ENCODER [9] = Except.error e) :=
  c9_decode_not_total [1, 2, 3] [9] (by decide) (by decide)

/-! ## Stopping playback (movement-recorder.ts, `stopPlayback`)

`stopPlayback` never throws: with no playback in progress it logs and
returns with the recorder untouched; during playback it clears only the
`isPlaying` flag (the playback loop observes the flag at frame boundaries,
never mid-move or mid-sleep) and then returns. -/

structure RecorderState where
  isRecording : Bool
  isPlaying : Bool
  currentRecording : List RFrame
  deriving DecidableEq, Repr

def stopPlayback (s : RecorderState) : Except String RecorderState :=
  if !s.isPlaying then Except.ok s
  else Except.ok { s with isPlaying := false }

/-- C10: calling stopPlayback with no playback in progress returns normally
and leaves the recorder state unchanged; with playback in progress it returns
normally and changes only the playing flag, leaving the recording flag and
the stored recording intact. -/
theorem c10_stop_playback :
    (∀ s : RecorderState, s.isPlaying = false → stopPlayback s = Except.ok s)
    ∧ (∀ s : RecorderState, s.isPlaying = true →
      stopPlayback s
        = Except.ok (RecorderState.mk s.isRecording false s.currentRecording)) := by
  constructor
  · intro s h
    unfold stopPlayback
    rw [h]
    rfl
  · intro s h
    unfold stopPlayback
    rw [h]
    rfl

/-- Witness for C10: stopping with no playback running is a no-op, stopping
during playback only clears the playing flag. -/
theorem c10_witness :
    stopPlayback (RecorderState.mk false false [RFrame.mk 0 [1]])
      = Except.ok (RecorderState.mk false false [RFrame.mk 0 [1]])
    ∧ stopPlayback (RecorderState.mk true true [RFrame.mk 0 [1]])
      = Except.ok (RecorderState.mk true false [RFrame.mk 0 [1]]) :=
  ⟨c10_stop_playback.1 (RecorderState.mk false false [RFrame.mk 0 [1]]) rfl,
    c10_stop_playback.2 (RecorderState.mk true true [RFrame.mk 0 [1]]) rfl⟩

end MyCobot
